import Mathlib

/-!
Verification of `unix/uxstore.c` (PuTTY Unix storage backend).

Strings are modelled as lists of byte values (`List Nat`); a valid C
string consists of bytes `b` with `0 < b < 256`.  Character constants
used below: `'%' = 37`, `'@' = 64`, `':' = 58`, `' ' = 32`, `'=' = 61`,
`'\n' = 10`, `'\r' = 13`, `'0' = 48`, `'9' = 57`, `'A' = 65`,
`'F' = 70`, `'Z' = 90`, `'a' = 97`, `'z' = 122`.
-/

namespace UxStore

/-- The `static const char hex[16] = "0123456789ABCDEF"` table. -/
def hexTable : List Nat :=
  [48, 49, 50, 51, 52, 53, 54, 55, 56, 57, 65, 66, 67, 68, 69, 70]

/-- The opt-in safe-character test of `mungestr`:
`+ - . @ _`, digits, uppercase and lowercase letters pass through. -/
def isSafeChar (b : Nat) : Bool :=
  b == 43 || b == 45 || b == 46 || b == 64 || b == 95 ||
  (48 ≤ b && b ≤ 57) || (65 ≤ b && b ≤ 90) || (97 ≤ b && b ≤ 122)

/-- `mungestr` from `uxstore.c`: safe characters pass through, every other
byte becomes `%` followed by its two uppercase hex digits
(`hex[b >> 4]`, `hex[b & 15]`). -/
def mungestr : List Nat → List Nat
  | [] => []
  | b :: rest =>
    if isSafeChar b then b :: mungestr rest
    else 37 :: hexTable.getD (b / 16) 0 :: hexTable.getD (b % 16) 0 :: mungestr rest

/-- The hex-digit evaluation of `unmungestr`:
`i = c - '0'; i -= (i > 9 ? 7 : 0)` in C `int` arithmetic. -/
def hexVal (c : Nat) : Int :=
  let i : Int := (c : Int) - 48
  if i > 9 then i - 7 else i

/-- The byte `(i << 4) + j` stored into a `char` by `unmungestr`,
reduced modulo 256 as the store into a byte does. -/
def decodeByte (c1 c2 : Nat) : Nat :=
  ((hexVal c1 * 16 + hexVal c2) % 256).toNat

/-- `unmungestr` from `uxstore.c`: a `%` with at least two following
characters is decoded as an escape triplet; everything else (including a
trailing `%` with fewer than two following characters) is copied through
one position at a time. -/
def unmungestr : List Nat → List Nat
  | b :: c1 :: c2 :: rest =>
    if b = 37 then decodeByte c1 c2 :: unmungestr rest
    else b :: unmungestr (c1 :: c2 :: rest)
  | short => short

/-- Uppercase hexadecimal digit test: `0`-`9` or `A`-`F`. -/
def isUpHexDigit (b : Nat) : Bool :=
  (48 ≤ b && b ≤ 57) || (65 ≤ b && b ≤ 70)

/-- A string is escape-well-formed when every `%` is followed by exactly two
uppercase hex digits and every other character is in the safe set. -/
def escapesOk : List Nat → Bool
  | b :: c1 :: c2 :: rest =>
    if b = 37 then isUpHexDigit c1 && isUpHexDigit c2 && escapesOk rest
    else isSafeChar b && escapesOk (c1 :: c2 :: rest)
  | [b, c] => if b = 37 then false else isSafeChar b && escapesOk [c]
  | [b] => if b = 37 then false else isSafeChar b
  | [] => true

/-! ## The `tree234` associative container

`tree234.c` is outside the given source slice, so the container is
modelled abstractly as a list of `struct keyval` entries observed only
through `find234`/`add234`. -/

/-- The keyval container holding `(key, value)` entries. -/
abbrev KvTree := List (List Nat × List Nat)

/-- Modelled from the spec: `find234` of the `tree234` container (missing
from the source slice, described in the spec as an ordered associative
structure) — returns the entry comparing equal to the probe key, if any. -/
def find234 (t : KvTree) (k : List Nat) : Option (List Nat) :=
  (t.find? (fun kv => kv.1 == k)).map Prod.snd

/-- Modelled from the spec: `add234` of the `tree234` container (missing
from the source slice).  It inserts only when no existing element compares
equal; on a collision the tree is left unchanged and the existing element
is returned — the behaviour `provide_xrm_string` in `uxstore.c` relies on
when it explicitly deletes the returned existing element and re-adds in
order to override it. -/
def add234 (t : KvTree) (k v : List Nat) : KvTree :=
  if (t.find? (fun kv => kv.1 == k)).isSome then t else t ++ [(k, v)]

/-! ## Session store: `open_settings_r` and the read fallback chain -/

/-- `strchr(line, '=')` splitting of `open_settings_r`: the first `=`
separates key (left) from value (right); a line with no `=` is skipped. -/
def splitFirstEq : List Nat → Option (List Nat × List Nat)
  | [] => none
  | b :: rest =>
    if b = 61 then some ([], rest)
    else
      match splitFirstEq rest with
      | none => none
      | some (k, v) => some (b :: k, v)

/-- `value[strcspn(value, "\r\n")] = '\0'`: truncate the value at the
first carriage return or newline. -/
def trimNewline (v : List Nat) : List Nat :=
  v.takeWhile (fun b => b != 13 && b != 10)

/-- One iteration of the `fgetline` loop body of `open_settings_r`. -/
def parseSessionLine (t : KvTree) (line : List Nat) : KvTree :=
  match splitFirstEq line with
  | none => t
  | some (k, v) => add234 t k (trimNewline v)

/-- The parse loop of `open_settings_r` over the file's lines. -/
def parseSession (lines : List (List Nat)) : KvTree :=
  lines.foldl parseSessionLine []

/-- `open_settings_r`: a missing file (`fopen` fails) yields the `NULL`
handle; otherwise the whole file is parsed into a keyval container. -/
def open_settings_r (file : Option (List (List Nat))) : Option KvTree :=
  file.map parseSession

/-- `get_setting`: consult the `xrmtree` resource table first, then the
external `x_get_default` lookup.  Together these are the spec's
`ResourceFallback`. -/
def get_setting (xrm : Option KvTree) (xdef : List Nat → Option (List Nat))
    (key : List Nat) : Option (List Nat) :=
  match xrm with
  | some t =>
    match find234 t key with
    | some v => some v
    | none => xdef key
  | none => xdef key

/-- The value-selection chain of `read_setting_s`/`read_setting_i`: the
open session record first, then `get_setting`. -/
def read_setting_val (handle : Option KvTree) (xrm : Option KvTree)
    (xdef : List Nat → Option (List Nat)) (key : List Nat) :
    Option (List Nat) :=
  match handle with
  | some t =>
    match find234 t key with
    | some v => some v
    | none => get_setting xrm xdef key
  | none => get_setting xrm xdef key

/-! ## Caller buffers: `strncpy` plus forced NUL termination -/

/-- The C string read back from a byte buffer: everything before the
first NUL. -/
def cstring (buf : List Nat) : List Nat :=
  buf.takeWhile (fun b => b != 0)

/-- `strncpy(buffer, val, buflen)`: the first `buflen` bytes of the
buffer become `val` truncated to `buflen`, NUL-padded if `val` is
shorter; bytes past `buflen` keep their old contents. -/
def strncpyBuf (buf val : List Nat) (n : Nat) : List Nat :=
  (val.take n ++ List.replicate (n - val.length) 0) ++ buf.drop n

/-- The copy-out sequence shared by `read_setting_s` and
`enum_settings_next`: `strncpy(buffer, val, buflen)` followed by
`buffer[buflen-1] = '\0'`. -/
def bufcopy (buf val : List Nat) (n : Nat) : List Nat :=
  (strncpyBuf buf val n).set (n - 1) 0

/-- `read_setting_s`: resolve the value through the fallback chain, and
on success copy it into the caller's buffer of size `buflen`, returning
the buffer (modelled by its full contents). -/
def read_setting_s (handle xrm : Option KvTree)
    (xdef : List Nat → Option (List Nat)) (key : List Nat)
    (buf : List Nat) (buflen : Nat) : Option (List Nat) :=
  match read_setting_val handle xrm xdef key with
  | none => none
  | some val => some (bufcopy buf val buflen)

/-- `enum_settings_next`: the directory is a list of `(d_name, regular)`
entries; skip non-regular entries, decode the first surviving name with
`unmungestr` and copy it out through the same buffer sequence. -/
def enum_settings_next (entries : List (List Nat × Bool))
    (buf : List Nat) (buflen : Nat) : Option (List Nat) :=
  match entries.find? (fun e => e.2) with
  | none => none
  | some e => some (bufcopy buf (unmungestr e.1) buflen)

/-! ## Host trust store

Lines have the form `keytype@port:hostname keydata`.  The trust file is
modelled as a list of newline-stripped lines; an absent file is `none`. -/

/-- Decimal rendering of a natural number, digit list form of
`sprintf(porttext, "%d", port)` for a non-negative port.  Fuel-based so
that it reduces inside the kernel. -/
def natToDecAux : Nat → Nat → List Nat → List Nat
  | 0, _, acc => acc
  | fuel + 1, n, acc =>
    if n < 10 then (48 + n) :: acc
    else natToDecAux fuel (n / 10) ((48 + n % 10) :: acc)

/-- Decimal digit string of a natural number. -/
def natToDec (n : Nat) : List Nat :=
  natToDecAux (n + 1) n []

/-- The per-line test of `verify_host_key`: strip at the first newline,
then match `keytype`, `'@'`, the decimal port, `':'`, `hostname`, `' '`
in sequence as literal prefixes; on a structural match compare the rest
of the line against `key`.  Returns `0` (match), `2` (mismatch) or `1`
(not a candidate, keep scanning — the value `ret` still holds at the
`done` label). -/
def checkLine (keytype : List Nat) (port : Nat) (hostname key line : List Nat) :
    Nat :=
  let l := line.takeWhile (fun b => b != 10)
  if keytype.isPrefixOf l then
    match l.drop keytype.length with
    | 64 :: p1 =>
      let porttext := natToDec port
      if porttext.isPrefixOf p1 then
        match p1.drop porttext.length with
        | 58 :: p2 =>
          if hostname.isPrefixOf p2 then
            match p2.drop hostname.length with
            | 32 :: p3 => if p3 = key then 0 else 2
            | _ => 1
          else 1
        | _ => 1
      else 1
    | _ => 1
  else 1

/-- The scanning loop of `verify_host_key`: front to back, breaking as
soon as a line yields a result other than `1`. -/
def scanHostLines (keytype : List Nat) (port : Nat) (hostname key : List Nat) :
    List (List Nat) → Nat
  | [] => 1
  | l :: rest =>
    let r := checkLine keytype port hostname key l
    if r = 1 then scanHostLines keytype port hostname key rest else r

/-- `verify_host_key`: `1` (absent) when the trust file cannot be opened,
otherwise the scan result: `0` match, `2` mismatch, `1` never seen. -/
def verify_host_key (file : Option (List (List Nat))) (hostname : List Nat)
    (port : Nat) (keytype key : List Nat) : Nat :=
  match file with
  | none => 1
  | some lines => scanHostLines keytype port hostname key lines

/-- The line `fprintf(fp, "%s@%d:%s %s\n", keytype, port, hostname, key)`
appends (without its trailing newline). -/
def hostkeyLine (keytype : List Nat) (port : Nat) (hostname key : List Nat) :
    List Nat :=
  keytype ++ 64 :: (natToDec port ++ 58 :: (hostname ++ 32 :: key))

/-- `store_host_key` file effect: open in append mode (creating an empty
file when absent) and append the one formatted line. -/
def store_host_key (file : Option (List (List Nat))) (hostname : List Nat)
    (port : Nat) (keytype key : List Nat) : List (List Nat) :=
  file.getD [] ++ [hostkeyLine keytype port hostname key]

/-- Outcome of a `store_host_key` call: either the file after the append,
or termination of the whole process via `exit(code)`. -/
inductive StoreOutcome where
  | ok (file : List (List Nat))
  | exited (code : Nat)
deriving DecidableEq

/-- `store_host_key` with its two `open(2)` attempts made explicit:
`openOk` is the first attempt, `retryOk` the attempt after `mkdir`; when
both fail the function calls `perror` and `exit(1)`. -/
def store_host_key_io (openOk retryOk : Bool)
    (file : Option (List (List Nat))) (hostname : List Nat) (port : Nat)
    (keytype key : List Nat) : StoreOutcome :=
  if openOk then .ok (store_host_key file hostname port keytype key)
  else if retryOk then .ok (store_host_key file hostname port keytype key)
  else .exited 1

/-! ## Random seed writing -/

/-- The write loop of `write_random_seed`.  `rets` is the sequence of
byte counts successive `write(2)` calls report (0 meaning no progress);
the result is the concatenation of the chunks actually emitted into the
file.  Faithful to the source, after a write of `r` bytes the data
pointer advances by the NEW remaining length (`data = (char *)data + len`
after `len -= ret`), i.e. to `data.drop (len - r)`. -/
def writeLoop : List Nat → Nat → List Nat → List Nat
  | _, _, [] => []
  | data, len, ret :: rets =>
    if len = 0 then []
    else
      let r := min ret len
      if r = 0 then []
      else data.take r ++ writeLoop (data.drop (len - r)) (len - r) rets

/-- `write_random_seed` on a fresh (empty) seed file: the file contents
after the call, given the sequence of short-write results. -/
def write_random_seed (data : List Nat) (rets : List Nat) : List Nat :=
  writeLoop data data.length rets

/-- A 600-byte seed with pairwise-position-identifying contents. -/
def seed600 : List Nat :=
  (List.range 600).map (fun i => i % 256)

/-! ## Theorems -/

theorem isSafeChar_ne_percent {b : Nat} (h : isSafeChar b = true) : b ≠ 37 := by
  simp only [isSafeChar, Bool.or_eq_true, beq_iff_eq, Bool.and_eq_true,
    decide_eq_true_eq] at h
  omega

/-- A non-`%` head is copied through by `unmungestr` whatever follows it. -/
theorem unmungestr_cons_ne {b : Nat} (hb : b ≠ 37) (l : List Nat) :
    unmungestr (b :: l) = b :: unmungestr l := by
  match l with
  | [] => rfl
  | [c] => rfl
  | c1 :: c2 :: t => simp [unmungestr, hb]

set_option maxRecDepth 4096 in
/-- Decoding the two emitted hex digits of a byte below 256 recovers the byte. -/
theorem decodeByte_hexTable :
    ∀ b : Nat, b < 256 →
      decodeByte (hexTable.getD (b / 16) 0) (hexTable.getD (b % 16) 0) = b := by
  decide

theorem unmungestr_escape (c1 c2 : Nat) (l : List Nat) :
    unmungestr (37 :: c1 :: c2 :: l) = decodeByte c1 c2 :: unmungestr l := by
  simp [unmungestr]

theorem escapesOk_escape (c1 c2 : Nat) (l : List Nat) :
    escapesOk (37 :: c1 :: c2 :: l) =
      (isUpHexDigit c1 && isUpHexDigit c2 && escapesOk l) := by
  simp [escapesOk]

theorem escapesOk_cons_ne {b : Nat} (hb : b ≠ 37) (l : List Nat) :
    escapesOk (b :: l) = (isSafeChar b && escapesOk l) := by
  match l with
  | [] => simp [escapesOk, hb]
  | [c] => simp [escapesOk, hb]
  | c1 :: c2 :: t => simp [escapesOk, hb]

theorem hexTable_isUpHexDigit : ∀ i : Nat, i < 16 →
    isUpHexDigit (hexTable.getD i 0) = true := by
  decide

theorem isUpHexDigit_isSafeChar {b : Nat} (h : isUpHexDigit b = true) :
    isSafeChar b = true := by
  simp only [isUpHexDigit, Bool.or_eq_true, Bool.and_eq_true,
    decide_eq_true_eq] at h
  simp only [isSafeChar, Bool.or_eq_true, beq_iff_eq, Bool.and_eq_true,
    decide_eq_true_eq]
  omega

/-- C1: for every profile name `n` (any sequence of non-NUL bytes, so in
particular the empty string, all-punctuation strings, and non-ASCII byte
sequences), decoding the encoded name returns the original:
`unmungestr (mungestr n) = n`. -/
theorem mungestr_roundtrip (n : List Nat) (h : ∀ b ∈ n, 0 < b ∧ b < 256) :
    unmungestr (mungestr n) = n := by
  induction n with
  | nil => rfl
  | cons b rest ih =>
    have hb := h b (by simp)
    have hrest : ∀ x ∈ rest, 0 < x ∧ x < 256 := fun x hx => h x (by simp [hx])
    by_cases hs : isSafeChar b
    · rw [mungestr, if_pos hs, unmungestr_cons_ne (isSafeChar_ne_percent hs),
        ih hrest]
    · rw [mungestr, if_neg hs, unmungestr_escape, decodeByte_hexTable b hb.2,
        ih hrest]

/-- Witness for C1 at the concrete name `"%A\xC8"`. -/
theorem mungestr_roundtrip_witness :
    (∀ b ∈ [37, 65, 200], 0 < b ∧ b < 256) ∧
      unmungestr (mungestr [37, 65, 200]) = [37, 65, 200] :=
  ⟨by decide, mungestr_roundtrip [37, 65, 200] (by decide)⟩

/-- C5: `mungestr` output contains only characters from
`{0-9, A-Z, a-z, +, -, ., @, _, %}`, and every `%` in it is followed by
exactly two uppercase hexadecimal digits. -/
theorem mungestr_output_safe (n : List Nat) (h : ∀ b ∈ n, b < 256) :
    escapesOk (mungestr n) = true ∧
      ∀ b ∈ mungestr n, isSafeChar b = true ∨ b = 37 := by
  induction n with
  | nil => exact ⟨rfl, by simp [mungestr]⟩
  | cons b rest ih =>
    have hb := h b (by simp)
    have hrest : ∀ x ∈ rest, x < 256 := fun x hx => h x (by simp [hx])
    obtain ⟨ih1, ih2⟩ := ih hrest
    by_cases hs : isSafeChar b
    · refine ⟨?_, ?_⟩
      · rw [mungestr, if_pos hs, escapesOk_cons_ne (isSafeChar_ne_percent hs),
          hs, ih1]
        rfl
      · rw [mungestr, if_pos hs]
        intro x hx
        simp only [List.mem_cons] at hx
        rcases hx with rfl | hx
        · exact Or.inl hs
        · exact ih2 x hx
    · have h1 : isUpHexDigit (hexTable.getD (b / 16) 0) = true :=
        hexTable_isUpHexDigit _ (by omega)
      have h2 : isUpHexDigit (hexTable.getD (b % 16) 0) = true :=
        hexTable_isUpHexDigit _ (by omega)
      refine ⟨?_, ?_⟩
      · rw [mungestr, if_neg hs, escapesOk_escape, h1, h2, ih1]
        rfl
      · rw [mungestr, if_neg hs]
        intro x hx
        simp only [List.mem_cons] at hx
        rcases hx with rfl | rfl | rfl | hx
        · exact Or.inr rfl
        · exact Or.inl (isUpHexDigit_isSafeChar h1)
        · exact Or.inl (isUpHexDigit_isSafeChar h2)
        · exact ih2 x hx

/-- Witness for C5 at the concrete name `" a\xFF"`. -/
theorem mungestr_output_safe_witness :
    (∀ b ∈ [32, 97, 255], b < 256) ∧
      (escapesOk (mungestr [32, 97, 255]) = true ∧
        ∀ b ∈ mungestr [32, 97, 255], isSafeChar b = true ∨ b = 37) :=
  ⟨by decide, mungestr_output_safe [32, 97, 255] (by decide)⟩

/-- C8: when the scanner meets a `%` with fewer than two following
characters, `unmungestr` copies it through literally instead of consuming
an escape triplet (and, `unmungestr` being a total structural recursion on
the input list, it never reads past the end of the input). -/
theorem unmungestr_trailing_percent (rest : List Nat)
    (hlen : rest.length < 2) (hbytes : ∀ b ∈ rest, 0 < b ∧ b < 256) :
    unmungestr (37 :: rest) = 37 :: rest := by
  match rest with
  | [] => rfl
  | [c] => rfl
  | c1 :: c2 :: t => exact absurd hlen (by simp)

/-- Witness for C8 at the concrete input `"%A"`. -/
theorem unmungestr_trailing_percent_witness :
    ([65] : List Nat).length < 2 ∧ (∀ b ∈ [65], 0 < b ∧ b < 256) ∧
      unmungestr [37, 65] = [37, 65] :=
  ⟨by decide, by decide, unmungestr_trailing_percent [65] (by decide) (by decide)⟩

theorem find234_add234_of_found {t : KvTree} {k u : List Nat}
    (h : find234 t k = some u) (q v : List Nat) :
    find234 (add234 t q v) k = some u := by
  unfold add234
  split
  · exact h
  · unfold find234 at h ⊢
    rw [List.find?_append]
    cases hf : List.find? (fun kv => kv.1 == k) t with
    | none => rw [hf] at h; simp at h
    | some kv => rw [hf] at h; simpa using h

theorem parse_preserves_binding
    (lines : List (List Nat)) (t : KvTree) (k u : List Nat)
    (h : find234 t k = some u) :
    find234 (List.foldl parseSessionLine t lines) k = some u := by
  induction lines generalizing t with
  | nil => exact h
  | cons line rest ih =>
    rw [List.foldl_cons]
    apply ih
    unfold parseSessionLine
    cases hsp : splitFirstEq line with
    | none => exact h
    | some kv => exact find234_add234_of_found h kv.1 (trimNewline kv.2)

/-- C6 is refuted: on a session file with two lines `k=a` and `k=b`
sharing the key `k`, `open_settings_r` does NOT return the later value
`b` for `k` (`add234` refuses the duplicate insertion). -/
theorem parse_duplicate_last_wins_false :
    ¬ find234 (parseSession [[107, 61, 97], [107, 61, 98]]) [107] =
        some [98] := by
  decide

/-- C6 (amended): when parsing a session file containing two lines with
the same key, the FIRST occurrence wins — once a key is bound, parsing
further lines never changes its value (`add234` does not overwrite an
existing entry), so `k=a` followed by `k=b` maps `k` to `a`. -/
theorem parse_duplicate_first_wins :
    (∀ (lines : List (List Nat)) (t : KvTree) (k u : List Nat),
        find234 t k = some u →
        find234 (List.foldl parseSessionLine t lines) k = some u) ∧
      find234 (parseSession [[107, 61, 97], [107, 61, 98]]) [107] =
        some [97] :=
  ⟨parse_preserves_binding, by decide⟩

/-- Witness for the amended C6 at a concrete bound key and one more line. -/
theorem parse_duplicate_first_wins_witness :
    find234 [([107], [97])] [107] = some [97] ∧
      find234 (List.foldl parseSessionLine [([107], [97])] [[107, 61, 98]])
          [107] = some [97] :=
  ⟨by decide,
    parse_duplicate_first_wins.1 [[107, 61, 98]] [([107], [97])] [107] [97]
      (by decide)⟩

/-- C7: a key absent from the open session record falls through to
`get_setting` (the `ResourceFallback` chain), the result is absent only
when neither source has the key, `open_settings_r` on a missing profile
yields the `NULL` handle, and every read through the `NULL` handle is
exactly the fallback lookup. -/
theorem read_setting_fallback (t : KvTree) (xrm : Option KvTree)
    (xdef : List Nat → Option (List Nat)) (key : List Nat) :
    (find234 t key = none →
        read_setting_val (some t) xrm xdef key = get_setting xrm xdef key) ∧
      (read_setting_val (some t) xrm xdef key = none ↔
        find234 t key = none ∧ get_setting xrm xdef key = none) ∧
      open_settings_r none = none ∧
      read_setting_val none xrm xdef key = get_setting xrm xdef key := by
  refine ⟨?_, ?_, rfl, rfl⟩
  · intro h
    simp [read_setting_val, h]
  · unfold read_setting_val
    cases h : find234 t key with
    | none => simp [h]
    | some v => simp [h]

/-- Witness for C7: a one-entry record not containing the probed key. -/
theorem read_setting_fallback_witness :
    find234 [([107], [97])] [108] = none ∧
      read_setting_val (some [([107], [97])]) none (fun _ => none) [108] =
        get_setting none (fun _ => none) [108] :=
  ⟨by decide,
    (read_setting_fallback [([107], [97])] none (fun _ => none) [108]).1
      (by decide)⟩

theorem cstring_append_zero (l t : List Nat) (h : ∀ b ∈ l, b ≠ 0) :
    cstring (l ++ 0 :: t) = l := by
  induction l with
  | nil => simp [cstring]
  | cons b bs ih =>
    have hb : (b != 0) = true := by
      simpa using h b (by simp)
    have hbs : ∀ x ∈ bs, x ≠ 0 := fun x hx => h x (by simp [hx])
    simp only [cstring, List.cons_append, List.takeWhile_cons, hb, if_true]
    simp only [cstring] at ih
    rw [ih hbs]

/-- The net effect of `strncpy` + forced NUL: the string the caller reads
back is the value truncated to `buflen - 1` bytes. -/
theorem cstring_bufcopy (buf val : List Nat) (n : Nat) (hn : 1 ≤ n)
    (hval : ∀ b ∈ val, b ≠ 0) :
    cstring (bufcopy buf val n) = val.take (n - 1) := by
  unfold bufcopy strncpyBuf
  by_cases hlen : n ≤ val.length
  · have hrep : n - val.length = 0 := by omega
    rw [hrep]
    simp only [List.replicate, List.append_nil]
    have hlt : n - 1 < (val.take n).length := by
      rw [List.length_take]
      omega
    rw [List.set_append_left _ _ hlt, List.set_eq_take_cons_drop _ hlt]
    have hdrop : (val.take n).drop (n - 1 + 1) = [] := by
      apply List.drop_eq_nil_of_le
      rw [List.length_take]
      omega
    have htake : (val.take n).take (n - 1) = val.take (n - 1) := by
      rw [List.take_take]
      congr 1
      omega
    rw [hdrop, htake, List.append_assoc]
    exact cstring_append_zero _ _ fun b hb => hval b (List.mem_of_mem_take hb)
  · have hall : val.take n = val := List.take_of_length_le (by omega)
    have hk : 1 ≤ n - val.length := by omega
    rw [hall, List.append_assoc]
    have hge : val.length ≤ n - 1 := by omega
    rw [List.set_append_right _ _ hge]
    have hj : n - 1 - val.length < (List.replicate (n - val.length) 0).length := by
      rw [List.length_replicate]
      omega
    rw [List.set_append_left _ _ hj, List.set_replicate_self]
    have hsplit : List.replicate (n - val.length) 0 =
        0 :: List.replicate (n - val.length - 1) (0 : Nat) := by
      rw [← List.replicate_succ]
      congr 1
      omega
    rw [hsplit, List.cons_append, cstring_append_zero _ _ hval,
      List.take_of_length_le hge]

/-- C10: for every stored value and every `buflen ≥ 1`, `read_setting_s`
copies at most `buflen - 1` bytes of the value into the caller's buffer
and NUL-terminates it, so the string read back is the value truncated to
`buflen - 1` bytes; the same truncation applies to the decoded names
returned by `enum_settings_next`. -/
theorem read_setting_s_truncates (handle xrm : Option KvTree)
    (xdef : List Nat → Option (List Nat)) (key val : List Nat)
    (buf : List Nat) (buflen : Nat)
    (entries : List (List Nat × Bool)) (e : List Nat × Bool)
    (hn : 1 ≤ buflen) (hbuf : buflen ≤ buf.length)
    (hv : read_setting_val handle xrm xdef key = some val)
    (hval : ∀ b ∈ val, b ≠ 0)
    (he : entries.find? (fun e => e.2) = some e)
    (hnm : ∀ b ∈ unmungestr e.1, b ≠ 0) :
    (read_setting_s handle xrm xdef key buf buflen).map cstring =
        some (val.take (buflen - 1)) ∧
      (enum_settings_next entries buf buflen).map cstring =
        some ((unmungestr e.1).take (buflen - 1)) := by
  constructor
  · rw [read_setting_s, hv]
    simp [cstring_bufcopy buf val buflen hn hval]
  · rw [enum_settings_next, he]
    simp [cstring_bufcopy buf (unmungestr e.1) buflen hn hnm]

/-- Witness for C10: value `"abc"` into a 3-byte buffer (`buflen = 3`)
keeps only `"ab"`; directory entry `"%25"` decodes to `"%"`. -/
theorem read_setting_s_truncates_witness :
    (1 ≤ 3 ∧ 3 ≤ ([1, 1, 1] : List Nat).length ∧
      read_setting_val (some [([107], [97, 98, 99])]) none (fun _ => none)
          [107] = some [97, 98, 99] ∧
      (∀ b ∈ [97, 98, 99], b ≠ 0) ∧
      ([([37, 50, 53], true)] : List (List Nat × Bool)).find?
          (fun e => e.2) = some ([37, 50, 53], true) ∧
      (∀ b ∈ unmungestr [37, 50, 53], b ≠ 0)) ∧
    (read_setting_s (some [([107], [97, 98, 99])]) none (fun _ => none)
          [107] [1, 1, 1] 3).map cstring = some [97, 98] ∧
      (enum_settings_next [([37, 50, 53], true)] [1, 1, 1] 3).map cstring =
        some [37] :=
  ⟨⟨by decide, by decide, by decide, by decide, by decide, by decide⟩,
    read_setting_s_truncates (some [([107], [97, 98, 99])]) none
      (fun _ => none) [107] [97, 98, 99] [1, 1, 1] 3
      [([37, 50, 53], true)] ([37, 50, 53], true)
      (by decide) (by decide) (by decide) (by decide) (by decide) (by decide)⟩

/-- C2: the tri-state result of `verify_host_key` — an absent or empty
trust file yields `1` (absent); after `store_host_key(h,22,rsa,K1)`, the
same query yields `0` (match) and the same identity with key `K2` yields
`2` (mismatch); a different port or a different hostname with the same
key yields `1` (absent).  Here `h = "h"`, `g = "g"`, `rsa = "rsa"`,
`K1 = "K1"`, `K2 = "K2"`. -/
theorem verify_host_key_tristate :
    verify_host_key none [104] 22 [114, 115, 97] [75, 49] = 1 ∧
      verify_host_key (some []) [104] 22 [114, 115, 97] [75, 49] = 1 ∧
      verify_host_key
          (some (store_host_key none [104] 22 [114, 115, 97] [75, 49]))
          [104] 22 [114, 115, 97] [75, 49] = 0 ∧
      verify_host_key
          (some (store_host_key none [104] 22 [114, 115, 97] [75, 49]))
          [104] 22 [114, 115, 97] [75, 50] = 2 ∧
      verify_host_key
          (some (store_host_key none [104] 22 [114, 115, 97] [75, 49]))
          [104] 23 [114, 115, 97] [75, 49] = 1 ∧
      verify_host_key
          (some (store_host_key none [104] 22 [114, 115, 97] [75, 49]))
          [103] 22 [114, 115, 97] [75, 49] = 1 := by
  decide

/-- C3: the scan stops at the first line whose identity fields match,
returning that line's payload comparison without looking further;
`store_host_key` only appends; hence after storing `K1` and then `K2`
for the same identity, verifying `K2` reports `2` (mismatch) because the
stale first line masks the newer one. -/
theorem verify_first_match :
    (∀ (kt : List Nat) (port : Nat) (hn key l : List Nat)
        (rest : List (List Nat)),
        checkLine kt port hn key l ≠ 1 →
        scanHostLines kt port hn key (l :: rest) =
          checkLine kt port hn key l) ∧
      (∀ (file : List (List Nat)) (hn : List Nat) (port : Nat)
          (kt key : List Nat),
        store_host_key (some file) hn port kt key =
          file ++ [hostkeyLine kt port hn key]) ∧
      verify_host_key
          (some (store_host_key
            (some (store_host_key none [104] 22 [114, 115, 97] [75, 49]))
            [104] 22 [114, 115, 97] [75, 50]))
          [104] 22 [114, 115, 97] [75, 50] = 2 := by
  refine ⟨?_, fun _ _ _ _ _ => rfl, by decide⟩
  intro kt port hn key l rest h
  simp only [scanHostLines]
  rw [if_neg h]

/-- Witness for C3: the stored `K1` line is a structural match for the
`K2` query, and prepending it decides the scan regardless of the tail. -/
theorem verify_first_match_witness :
    checkLine [114, 115, 97] 22 [104] [75, 50]
        (hostkeyLine [114, 115, 97] 22 [104] [75, 49]) ≠ 1 ∧
      scanHostLines [114, 115, 97] 22 [104] [75, 50]
          (hostkeyLine [114, 115, 97] 22 [104] [75, 49] :: [[120]]) =
        checkLine [114, 115, 97] 22 [104] [75, 50]
          (hostkeyLine [114, 115, 97] 22 [104] [75, 49]) :=
  ⟨by decide,
    verify_first_match.1 [114, 115, 97] 22 [104] [75, 50]
      (hostkeyLine [114, 115, 97] 22 [104] [75, 49]) [[120]] (by decide)⟩

/-- C9 is refuted: when the trust-store file cannot be created (both open
attempts fail), `store_host_key` terminates the whole process with
`exit(1)` — it does not merely fail the single operation, and being a
`void` function it has no channel to report anything to its caller. -/
theorem store_host_key_exits_counterexample :
    store_host_key_io false false none [104] 22 [114, 115, 97] [75, 49] =
        StoreOutcome.exited 1 ∧
      store_host_key_io false false none [104] 22 [114, 115, 97] [75, 49] ≠
        StoreOutcome.ok
          (store_host_key none [104] 22 [114, 115, 97] [75, 49]) := by
  decide

/-- C9 (amended): when `store_host_key` cannot create the trust-store
file (both open attempts fail, before and after `mkdir`), it prints the
error and exits the whole process with status 1; when either open
attempt succeeds, it appends the formatted line and returns normally. -/
theorem store_host_key_exit_behaviour :
    (∀ (file : Option (List (List Nat))) (hn : List Nat) (port : Nat)
        (kt key : List Nat),
        store_host_key_io false false file hn port kt key =
          StoreOutcome.exited 1) ∧
      (∀ (retryOk : Bool) (file : Option (List (List Nat))) (hn : List Nat)
          (port : Nat) (kt key : List Nat),
        store_host_key_io true retryOk file hn port kt key =
          StoreOutcome.ok (store_host_key file hn port kt key)) ∧
      (∀ (file : Option (List (List Nat))) (hn : List Nat) (port : Nat)
          (kt key : List Nat),
        store_host_key_io false true file hn port kt key =
          StoreOutcome.ok (store_host_key file hn port kt key)) :=
  ⟨fun _ _ _ _ _ => rfl, fun _ _ _ _ _ _ => rfl, fun _ _ _ _ _ => rfl⟩

set_option maxRecDepth 100000 in
/-- C4 is refuted by the code: a 600-byte seed completed in two forced
short writes (512 then 88 bytes, all 600 reported written) leaves the
file with the wrong contents — the second write re-emits bytes 88..175
of the buffer instead of bytes 512..599, because the data pointer is
advanced by the remaining length instead of by the amount written. -/
theorem write_random_seed_short_write_bug :
    write_random_seed seed600 [512, 88] ≠ seed600 ∧
      write_random_seed seed600 [512, 88] =
        seed600.take 512 ++ (seed600.drop 88).take 88 ∧
      (write_random_seed seed600 [512, 88]).length = 600 ∧
      write_random_seed seed600 [300, 300] = seed600 := by
  refine ⟨by decide, by decide, by decide, by decide⟩

end UxStore
